import Mathlib

/-!
Verification of the locomotion and collision core of the interactive
Santa-Claus-village scene.

The development shallowly embeds, in Lean 4:
  * the heightfield sampler of `src/environment/abiskoTerrain.js`
    (stride selection, downsampled grid, bilinear height query);
  * the collision resolver of `src/collision/colliders.js`
    (cylinder-vs-AABB push-out, iteration loop, finiteness guard)
    together with the collider registry build step;
  * the movement integrator of `main.js`
    (gravity stage, jump edge-triggering, sub-step loop with terrain
    clamp and out-of-terrain revert, map-bounds clamp).

Rational numbers model the exact decimal constants of the terrain code;
real numbers model the floating-point geometry of the resolver (which
uses square roots).  `Number.isFinite` — the one genuinely float-specific
test in the resolver — is abstracted as a Boolean predicate parameter.
-/

namespace SantaVillage

/-! ## Heightfield sampler (`src/environment/abiskoTerrain.js`) -/

/-- Scene scale: the terrain tile spans 1 km x 1 km (`TERRAIN_SIZE_M`). -/
def TERRAIN_SIZE_M : ℚ := 1000

/-- Cap on terrain segments per side (`MAX_SEGMENTS`). -/
def MAX_SEGMENTS : ℕ := 512

/-- Elevation range minimum in meters (`ELEV_MIN_M`). -/
def ELEV_MIN_M : ℚ := 478.42

/-- Elevation range maximum in meters (`ELEV_MAX_M`). -/
def ELEV_MAX_M : ℚ := 723.65

/-- Decoded RGBA raster, abstracted to its red (grayscale) channel:
a width, a height, and a byte value per pixel coordinate. -/
structure ImageData where
  width : ℕ
  height : ℕ
  gray : ℕ → ℕ → Fin 256

/-- `computeStride(w, h)`: integer downsampling stride so that the
sampled grid keeps at most `MAX_SEGMENTS + 1` samples per side.
`Math.ceil(maxSide / (MAX_SEGMENTS + 1))` is the ceiling division
`(maxSide + MAX_SEGMENTS) / (MAX_SEGMENTS + 1)` on naturals. -/
def computeStride (w h : ℕ) : ℕ :=
  let maxSide := max w h
  if maxSide ≤ MAX_SEGMENTS + 1 then 1
  else (maxSide + MAX_SEGMENTS) / (MAX_SEGMENTS + 1)

/-- Number of retained samples along X: `Math.floor((width-1)/stride) + 1`. -/
def sampleW (img : ImageData) : ℕ :=
  (img.width - 1) / computeStride img.width img.height + 1

/-- Number of retained samples along Y: `Math.floor((height-1)/stride) + 1`. -/
def sampleH (img : ImageData) : ℕ :=
  (img.height - 1) / computeStride img.width img.height + 1

/-- `sampleGray01(imageData, x, y)`: clamp the pixel coordinate into the
raster and return the red byte normalized to `[0,1]`.  (The `Math.max(0, _)`
half of the clamp is implicit in the `ℕ` coordinate.) -/
def sampleGray01 (img : ImageData) (x y : ℕ) : ℚ :=
  let xx := min (img.width - 1) x
  let yy := min (img.height - 1) y
  ((img.gray xx yy : ℕ) : ℚ) / 255

/-- One entry of the `heights` array built during terrain construction:
`heights[iy * sampleW + ix]` holds the shifted elevation
`(ELEV_MIN_M + h01 * (ELEV_MAX_M - ELEV_MIN_M)) - ELEV_MIN_M`
of the raster pixel `(ix * stride, iy * stride)`. -/
def heightSample (img : ImageData) (ix iy : ℕ) : ℚ :=
  let stride := computeStride img.width img.height
  let h01 := sampleGray01 img (ix * stride) (iy * stride)
  let elevM := ELEV_MIN_M + h01 * (ELEV_MAX_M - ELEV_MIN_M)
  elevM - ELEV_MIN_M

/-- `getHeightAtLocalXZ(x, z)`: bilinear height query in local space.
Maps `[-500, 500]` to `[0,1]` per axis, rejects coordinates outside
`[0,1]`, then bilinearly interpolates the four enclosing grid samples. -/
def getHeightAtLocalXZ (img : ImageData) (x z : ℚ) : Option ℚ :=
  let half := TERRAIN_SIZE_M * 0.5
  let u := (x + half) / TERRAIN_SIZE_M
  let v := (z + half) / TERRAIN_SIZE_M
  if u < 0 ∨ u > 1 ∨ v < 0 ∨ v > 1 then none
  else
    let fx := u * ((sampleW img : ℚ) - 1)
    let fy := v * ((sampleH img : ℚ) - 1)
    let x0 := ⌊fx⌋
    let y0 := ⌊fy⌋
    let x1 := min (x0 + 1) ((sampleW img : ℤ) - 1)
    let y1 := min (y0 + 1) ((sampleH img : ℤ) - 1)
    let tx := fx - (x0 : ℚ)
    let ty := fy - (y0 : ℚ)
    let h00 := heightSample img x0.toNat y0.toNat
    let h10 := heightSample img x1.toNat y0.toNat
    let h01v := heightSample img x0.toNat y1.toNat
    let h11 := heightSample img x1.toNat y1.toNat
    let hx0 := h00 * (1 - tx) + h10 * tx
    let hx1 := h01v * (1 - tx) + h11 * tx
    some (hx0 * (1 - ty) + hx1 * ty)

/-! ## Collision resolver (`src/collision/colliders.js`)

Player geometry and obstacle boxes live in ℝ.  The resolver's square
roots make these definitions noncomputable; the proofs evaluate them
symbolically. -/

noncomputable section

/-- A world-space 3D vector / position. -/
structure Vec3 where
  x : ℝ
  y : ℝ
  z : ℝ
deriving DecidableEq

/-- A world-space axis-aligned bounding box (THREE.Box3). -/
structure Box where
  minX : ℝ
  minY : ℝ
  minZ : ℝ
  maxX : ℝ
  maxY : ℝ
  maxZ : ℝ
deriving DecidableEq

/-- `THREE.MathUtils.clamp(value, min, max) = Math.max(min, Math.min(max, value))`. -/
def clampR (value lo hi : ℝ) : ℝ := max lo (min hi value)

/-- Player constants of the final `main.js` variant. -/
def EYE_HEIGHT : ℝ := 1.7

/-- Collision cylinder height (`PLAYER_HEIGHT`). -/
def PLAYER_HEIGHT : ℝ := 1.8

/-- Collision cylinder radius (`PLAYER_RADIUS`). -/
def PLAYER_RADIUS : ℝ := 0.45

/-- Gravity constant (`GRAVITY`). -/
def GRAVITY : ℝ := 30.0

/-- Jump strength (`JUMP_VELOCITY`). -/
def JUMP_VELOCITY : ℝ := 9.0

/-- Maximum sub-step travel distance (`MAX_STEP`). -/
def MAX_STEP : ℝ := 0.10

/-- Distance kept from the terrain edge (`EDGE_BUFFER`). -/
def EDGE_BUFFER : ℝ := 5.0

/-- `resolveOneBoxXZ(playerPos, box, radius, height, eyeOffset, skin)`:
push the player cylinder out of one AABB in the XZ plane.  Returns the
(possibly corrected) position together with the JS return value
(`true` iff a correction was applied). -/
def resolveOneBoxXZ (p : Vec3) (b : Box) (radius height eyeOffset skin : ℝ) :
    Vec3 × Bool :=
  let feetY := p.y - eyeOffset
  let headY := feetY + height
  if headY < b.minY ∨ feetY > b.maxY then (p, false)
  else
    let cx := clampR p.x b.minX b.maxX
    let cz := clampR p.z b.minZ b.maxZ
    let dx := p.x - cx
    let dz := p.z - cz
    let distSq := dx * dx + dz * dz
    let r := radius + skin
    if distSq ≥ r * r then (p, false)
    else if distSq < 1e-12 then
      let toMinX := |p.x - b.minX|
      let toMaxX := |b.maxX - p.x|
      let toMinZ := |p.z - b.minZ|
      let toMaxZ := |b.maxZ - p.z|
      let m := min (min (min toMinX toMaxX) toMinZ) toMaxZ
      if m = toMinX then ({ p with x := b.minX - r }, true)
      else if m = toMaxX then ({ p with x := b.maxX + r }, true)
      else if m = toMinZ then ({ p with z := b.minZ - r }, true)
      else ({ p with z := b.maxZ + r }, true)
    else
      let dist := Real.sqrt distSq
      let push := r - dist
      let nx := dx / dist
      let nz := dz / dist
      ({ p with x := p.x + nx * push, z := p.z + nz * push }, true)

/-- One pass of the resolver's inner `for` loop over `colliderBoxes`,
threading the mutable player position and the `anyThisIter` flag. -/
def resolvePass (p : Vec3) (boxes : List Box) (radius height eyeOffset skin : ℝ) :
    Vec3 × Bool :=
  boxes.foldl
    (fun acc b =>
      let r := resolveOneBoxXZ acc.1 b radius height eyeOffset skin
      (r.1, acc.2 || r.2))
    (p, false)

/-- The resolver's outer iteration loop (`for iter < maxIters`), which
stops early after a pass with no corrections. -/
def resolveIters (fuel : ℕ) (p : Vec3) (boxes : List Box)
    (radius height eyeOffset skin : ℝ) : Vec3 :=
  match fuel with
  | 0 => p
  | n + 1 =>
    let pass := resolvePass p boxes radius height eyeOffset skin
    if pass.2 then resolveIters n pass.1 boxes radius height eyeOffset skin
    else pass.1

/-- `resolveCollisions(playerPosition, prevPlayerPos, onCollision, opts)`:
run the iteration loop, then revert to the previous position if any
coordinate fails the finiteness test.  `Number.isFinite` is the
float-specific part and is passed in as the predicate `isFin`. -/
def resolveCollisions (isFin : ℝ → Bool) (boxes : List Box) (p prev : Vec3)
    (radius height eyeOffset : ℝ) (maxIters : ℕ) (skin : ℝ) : Vec3 :=
  let q := resolveIters maxIters p boxes radius height eyeOffset skin
  if isFin q.x && isFin q.y && isFin q.z then q else prev

/-- Over ℝ every value is finite; this instantiates `Number.isFinite`
for the exact-arithmetic statements. -/
def realFinite : ℝ → Bool := fun _ => true

/-- Spec-side measurement: the X offset from the closest point of the
box to the position (the resolver's `dx`). -/
def deltaX (p : Vec3) (b : Box) : ℝ := p.x - clampR p.x b.minX b.maxX

/-- Spec-side measurement: the Z offset from the closest point of the
box to the position (the resolver's `dz`). -/
def deltaZ (p : Vec3) (b : Box) : ℝ := p.z - clampR p.z b.minZ b.maxZ

/-- Spec-side measurement: the squared XZ distance from the position to
the closest point of the box (the resolver's `distSq`). -/
def distSqXZ (p : Vec3) (b : Box) : ℝ :=
  deltaX p b * deltaX p b + deltaZ p b * deltaZ p b

/-- Spec-side measurement: the XZ distance from the position to the
closest point of the box (the spec's "distance from the box's surface"
for points outside the footprint). -/
def distToBoxXZ (p : Vec3) (b : Box) : ℝ :=
  Real.sqrt (distSqXZ p b)

/-! ## Collider registry build step (`registerCollidersFromObject`) -/

/-- Terrain bounds in XZ (`terrainXZ`). -/
structure BoundsXZ where
  minX : ℝ
  maxX : ℝ
  minZ : ℝ
  maxZ : ℝ

/-- The clamp margin of `clampPlayerToTerrainBounds`:
`EDGE_BUFFER + PLAYER_RADIUS + 0.05`. -/
def boundsMargin : ℝ := EDGE_BUFFER + PLAYER_RADIUS + 0.05

/-- `clampPlayerToTerrainBounds()`: no-op while `terrainXZ` is null,
otherwise clamp the XZ position into the footprint shrunk by the margin. -/
def clampPlayerToTerrainBounds (bounds : Option BoundsXZ) (p : Vec3) : Vec3 :=
  match bounds with
  | none => p
  | some b =>
    { p with
      x := clampR p.x (b.minX + boundsMargin) (b.maxX - boundsMargin)
      z := clampR p.z (b.minZ + boundsMargin) (b.maxZ - boundsMargin) }

/-- Gravity stage of the tick (`if (groundY != null) ... else velocity.y = 0`):
integrate gravity only when the ground sample at the player's XZ exists. -/
def gravityStage (ground : ℝ → ℝ → Option ℝ) (px pz : ℝ) (vel : Vec3) (dt : ℝ) :
    Vec3 :=
  match ground px pz with
  | some _ => ⟨vel.x, vel.y - GRAVITY * dt, vel.z⟩
  | none => ⟨vel.x, 0, vel.z⟩

/-- The position a sub-step produces before the terrain check: integrate
the velocity over `subDt`, resolve collisions against the registry
(previous position = the sub-step start), clamp to the map bounds. -/
def substepCandidate (isFin : ℝ → Bool) (boxes : List Box)
    (bounds : Option BoundsXZ) (p vel : Vec3) (subDt : ℝ) : Vec3 :=
  let p1 : Vec3 := ⟨p.x + vel.x * subDt, p.y + vel.y * subDt, p.z + vel.z * subDt⟩
  let p2 := resolveCollisions isFin boxes p1 p PLAYER_RADIUS PLAYER_HEIGHT
    EYE_HEIGHT 4 0.01
  clampPlayerToTerrainBounds bounds p2

/-- One sub-step of the tick loop: candidate position, then the terrain
check — snap up to the ground when below it, or revert the whole
sub-step (and zero the vertical velocity) when no ground sample exists. -/
def substep (ground : ℝ → ℝ → Option ℝ) (isFin : ℝ → Bool) (boxes : List Box)
    (bounds : Option BoundsXZ) (p vel : Vec3) (subDt : ℝ) : Vec3 × Vec3 :=
  let p3 := substepCandidate isFin boxes bounds p vel subDt
  match ground p3.x p3.z with
  | some gy =>
    if p3.y < gy + EYE_HEIGHT then (⟨p3.x, gy + EYE_HEIGHT, p3.z⟩, ⟨vel.x, 0, vel.z⟩)
    else (p3, vel)
  | none => (p, ⟨vel.x, 0, vel.z⟩)

/-- The `for (let s = 0; s < steps; s++)` sub-step loop of the tick. -/
def runSubsteps (ground : ℝ → ℝ → Option ℝ) (isFin : ℝ → Bool)
    (boxes : List Box) (bounds : Option BoundsXZ) :
    ℕ → Vec3 → Vec3 → ℝ → Vec3 × Vec3
  | 0, p, vel, _ => (p, vel)
  | n + 1, p, vel, subDt =>
    let s := substep ground isFin boxes bounds p vel subDt
    runSubsteps ground isFin boxes bounds n s.1 s.2 subDt

/-- The frame-boundary bound of the spec: the XZ position lies inside
the terrain footprint shrunk by the clamp margin on each side. -/
def inBoundsXZ (b : BoundsXZ) (p : Vec3) : Prop :=
  b.minX + boundsMargin ≤ p.x ∧ p.x ≤ b.maxX - boundsMargin ∧
    b.minZ + boundsMargin ≤ p.z ∧ p.z ≤ b.maxZ - boundsMargin

/-! ## Jump input model (`main.js` key listeners and jump stage) -/

/-- The pieces of input state the jump logic reads and writes:
whether `keys` contains `"Space"` and the `jumpQueued` flag. -/
structure InputState where
  spaceHeld : Bool
  jumpQueued : Bool
deriving DecidableEq

/-- The `keydown` listener for `Space`: queue a jump only when `Space`
is not already held (initial press, not a repeat), then add the key. -/
def keydownSpace (s : InputState) : InputState :=
  let queued := if s.spaceHeld then s.jumpQueued else true
  ⟨true, queued⟩

/-- The `keyup` listener for `Space`: remove the key. -/
def keyupSpace (s : InputState) : InputState :=
  ⟨false, s.jumpQueued⟩

/-- The jump stage of the tick: on a queued jump while grounded, set the
vertical velocity to `JUMP_VELOCITY`, consume the queue and become
airborne; otherwise consume the queue only when grounded.  Returns
`(jumpQueued, grounded, velocityY)`. -/
def jumpStage (jumpQueued grounded : Bool) (vy : ℝ) : Bool × Bool × ℝ :=
  if jumpQueued && grounded then (false, false, JUMP_VELOCITY)
  else (if grounded then false else jumpQueued, grounded, vy)

end

/-! ## Helper lemmas -/

/-- Every branch of the one-box correction rewrites only X and Z. -/
theorem resolveOneBoxXZ_y (p : Vec3) (b : Box) (radius height eyeOffset skin : ℝ) :
    (resolveOneBoxXZ p b radius height eyeOffset skin).1.y = p.y := by
  simp only [resolveOneBoxXZ]
  repeat' split
  all_goals rfl

/-- The per-pass fold preserves the Y coordinate, from any accumulator. -/
theorem resolvePass_y_aux (boxes : List Box) (q : Vec3) (flag : Bool)
    (radius height eyeOffset skin : ℝ) :
    ((List.foldl
      (fun acc b =>
        let r := resolveOneBoxXZ acc.1 b radius height eyeOffset skin
        (r.1, acc.2 || r.2)) (q, flag) boxes).1).y = q.y := by
  induction boxes generalizing q flag with
  | nil => rfl
  | cons b bs ih =>
    rw [List.foldl_cons]
    exact (ih (resolveOneBoxXZ q b radius height eyeOffset skin).1
      (flag || (resolveOneBoxXZ q b radius height eyeOffset skin).2)).trans
      (resolveOneBoxXZ_y q b radius height eyeOffset skin)

/-- One resolver pass preserves the Y coordinate. -/
theorem resolvePass_y (p : Vec3) (boxes : List Box)
    (radius height eyeOffset skin : ℝ) :
    ((resolvePass p boxes radius height eyeOffset skin).1).y = p.y :=
  resolvePass_y_aux boxes p false radius height eyeOffset skin

/-- The iteration loop preserves the Y coordinate. -/
theorem resolveIters_y (fuel : ℕ) (p : Vec3) (boxes : List Box)
    (radius height eyeOffset skin : ℝ) :
    (resolveIters fuel p boxes radius height eyeOffset skin).y = p.y := by
  induction fuel generalizing p with
  | zero => rfl
  | succ n ih =>
    simp only [resolveIters]
    split
    · exact (ih _).trans (resolvePass_y p boxes radius height eyeOffset skin)
    · exact resolvePass_y p boxes radius height eyeOffset skin

/-! ## Claim C4: stride selection and sample-grid bound -/

/-- Bound for one axis: with the stride chosen for raster sides of
maximum `m`, at most `MAX_SEGMENTS + 1` samples remain on an axis of
length `w ≤ m`. -/
theorem sample_axis_bound (w m : ℕ) (hw : w ≤ m) :
    (w - 1) / (if m ≤ MAX_SEGMENTS + 1 then 1
      else (m + MAX_SEGMENTS) / (MAX_SEGMENTS + 1)) + 1 ≤ MAX_SEGMENTS + 1 := by
  simp only [MAX_SEGMENTS]
  split
  · rename_i hsmall
    simp only [Nat.div_one]
    omega
  · rename_i hbig
    set k := (m + 512) / 513 with hkdef
    have hk : 0 < k := by omega
    have hdlt : (w - 1) / k < 513 :=
      (Nat.div_lt_iff_lt_mul hk).2 (by omega)
    omega

/-- The ceiling division of the stride computation agrees with the
mathematical ceiling `⌈m / (MAX_SEGMENTS + 1)⌉`. -/
theorem ceil_div_eq (m : ℕ) :
    (((m + MAX_SEGMENTS) / (MAX_SEGMENTS + 1) : ℕ) : ℤ) =
      ⌈(m : ℚ) / ((MAX_SEGMENTS : ℚ) + 1)⌉ := by
  simp only [MAX_SEGMENTS]
  set k := (m + 512) / 513 with hkdef
  have hk1 : 513 * k ≤ m + 512 := by omega
  have hk2 : m + 512 < 513 * k + 513 := by omega
  symm
  rw [Int.ceil_eq_iff]
  have hq1 : ((513 * k : ℕ) : ℚ) ≤ ((m : ℕ) : ℚ) + 512 := by exact_mod_cast hk1
  have hq2 : ((m : ℕ) : ℚ) ≤ ((513 * k : ℕ) : ℚ) := by exact_mod_cast (by omega : m ≤ 513 * k)
  push_cast at hq1 hq2
  constructor
  · push_cast
    rw [lt_div_iff₀ (by norm_num : (0 : ℚ) < 512 + 1)]
    linarith
  · push_cast
    rw [div_le_iff₀ (by norm_num : (0 : ℚ) < 512 + 1)]
    linarith

/-- Claim C4: the terrain build chooses stride 1 when the larger raster
side is at most `MAX_SEGMENTS + 1` and the ceiling
`⌈maxSide / (MAX_SEGMENTS + 1)⌉` otherwise, and for every raster size the
downsampled grid keeps at most `MAX_SEGMENTS + 1` samples per side. -/
theorem computeStride_spec_and_sample_bound (img : ImageData) :
    (max img.width img.height ≤ MAX_SEGMENTS + 1 →
      computeStride img.width img.height = 1) ∧
    (MAX_SEGMENTS + 1 < max img.width img.height →
      (computeStride img.width img.height : ℤ) =
        ⌈((max img.width img.height : ℕ) : ℚ) / ((MAX_SEGMENTS : ℚ) + 1)⌉) ∧
    sampleW img ≤ MAX_SEGMENTS + 1 ∧ sampleH img ≤ MAX_SEGMENTS + 1 := by
  refine ⟨fun hsmall => ?_, fun hbig => ?_, ?_, ?_⟩
  · unfold computeStride
    rw [if_pos hsmall]
  · unfold computeStride
    rw [if_neg (not_le.mpr hbig)]
    exact ceil_div_eq (max img.width img.height)
  · unfold sampleW computeStride
    exact sample_axis_bound img.width (max img.width img.height) (le_max_left _ _)
  · unfold sampleH computeStride
    exact sample_axis_bound img.height (max img.width img.height) (le_max_right _ _)

/-- A 1024 x 768 raster used to instantiate the stride theorem. -/
def imgTest : ImageData := ⟨1024, 768, fun _ _ => 0⟩

/-- Witness for C4 at a concrete 1024 x 768 raster: the stride is the
ceiling division and both sample counts stay within the cap. -/
theorem computeStride_spec_and_sample_bound_witness :
    ((computeStride imgTest.width imgTest.height : ℤ) =
      ⌈((max imgTest.width imgTest.height : ℕ) : ℚ) / ((MAX_SEGMENTS : ℚ) + 1)⌉) ∧
    sampleW imgTest ≤ MAX_SEGMENTS + 1 ∧ sampleH imgTest ≤ MAX_SEGMENTS + 1 :=
  ⟨(computeStride_spec_and_sample_bound imgTest).2.1
      (by unfold imgTest MAX_SEGMENTS; norm_num),
   (computeStride_spec_and_sample_bound imgTest).2.2.1,
   (computeStride_spec_and_sample_bound imgTest).2.2.2⟩

/-! ## Claim C5: finiteness guard of the resolver -/

/-- Claim C5: if any coordinate of the corrected position fails the
finiteness test, `resolveCollisions` discards it and returns
`previousPosition`; consequently, whenever the previous position is
finite on all axes, the returned position is finite on all axes. -/
theorem resolveCollisions_finite_guard (isFin : ℝ → Bool) (boxes : List Box)
    (p prev : Vec3) (radius height eyeOffset : ℝ) (maxIters : ℕ) (skin : ℝ) :
    (¬(isFin (resolveIters maxIters p boxes radius height eyeOffset skin).x &&
        isFin (resolveIters maxIters p boxes radius height eyeOffset skin).y &&
        isFin (resolveIters maxIters p boxes radius height eyeOffset skin).z) = true →
      resolveCollisions isFin boxes p prev radius height eyeOffset maxIters skin = prev) ∧
    ((isFin prev.x && isFin prev.y && isFin prev.z) = true →
      (isFin (resolveCollisions isFin boxes p prev radius height eyeOffset maxIters skin).x &&
       isFin (resolveCollisions isFin boxes p prev radius height eyeOffset maxIters skin).y &&
       isFin (resolveCollisions isFin boxes p prev radius height eyeOffset maxIters skin).z) = true) := by
  constructor
  · intro hcontra
    unfold resolveCollisions
    rw [if_neg hcontra]
  · intro hprev
    simp only [resolveCollisions]
    split
    · rename_i hg
      exact hg
    · exact hprev

/-- Witness for C5: with a never-finite test the resolver returns the
previous position; with an always-finite test the result passes the
finiteness test. -/
theorem resolveCollisions_finite_guard_witness :
    resolveCollisions (fun _ => false) [] ⟨1, 2, 3⟩ ⟨4, 5, 6⟩ 0.45 1.8 1.7 4 0.01 =
      (⟨4, 5, 6⟩ : Vec3) ∧
    (realFinite (resolveCollisions realFinite [] ⟨1, 2, 3⟩ ⟨4, 5, 6⟩ 0.45 1.8 1.7 4 0.01).x &&
     realFinite (resolveCollisions realFinite [] ⟨1, 2, 3⟩ ⟨4, 5, 6⟩ 0.45 1.8 1.7 4 0.01).y &&
     realFinite (resolveCollisions realFinite [] ⟨1, 2, 3⟩ ⟨4, 5, 6⟩ 0.45 1.8 1.7 4 0.01).z) = true :=
  ⟨(resolveCollisions_finite_guard (fun _ => false) [] ⟨1, 2, 3⟩ ⟨4, 5, 6⟩
      0.45 1.8 1.7 4 0.01).1 (by simp),
   (resolveCollisions_finite_guard realFinite [] ⟨1, 2, 3⟩ ⟨4, 5, 6⟩
      0.45 1.8 1.7 4 0.01).2 (by simp [realFinite])⟩

/-! ## Claim C10: the resolver passes write only X and Z -/

/-- Claim C10: whenever the finiteness fallback is not taken (the
corrected position passes the finiteness test), the position returned by
`resolveCollisions` has the Y coordinate of the input position — every
per-box correction writes only X and Z. -/
theorem resolveCollisions_preserves_y (isFin : ℝ → Bool) (boxes : List Box)
    (p prev : Vec3) (radius height eyeOffset : ℝ) (maxIters : ℕ) (skin : ℝ)
    (hfin : (isFin (resolveIters maxIters p boxes radius height eyeOffset skin).x &&
      isFin (resolveIters maxIters p boxes radius height eyeOffset skin).y &&
      isFin (resolveIters maxIters p boxes radius height eyeOffset skin).z) = true) :
    (resolveCollisions isFin boxes p prev radius height eyeOffset maxIters skin).y = p.y := by
  unfold resolveCollisions
  simp only [hfin, if_true]
  exact resolveIters_y maxIters p boxes radius height eyeOffset skin

/-- Witness for C10 at a concrete input: with the always-finite test and
an empty registry, the resolver leaves Y = 2 untouched. -/
theorem resolveCollisions_preserves_y_witness :
    (resolveCollisions realFinite [] ⟨1, 2, 3⟩ ⟨4, 5, 6⟩ 0.45 1.8 1.7 4 0.01).y = 2 :=
  resolveCollisions_preserves_y realFinite [] ⟨1, 2, 3⟩ ⟨4, 5, 6⟩ 0.45 1.8 1.7 4 0.01
    (by simp [realFinite])

/-! ## Claim C6: unknown-ground fail-safes of the integrator -/

/-- Claim C6: when the ground sample at the player's XZ is null, the
gravity stage does not integrate gravity and zeroes the vertical
velocity; and when the ground sample at a sub-step's new XZ is null, the
sub-step is reverted on all three axes and the vertical velocity is
zeroed. -/
theorem tick_null_ground_failsafe (ground : ℝ → ℝ → Option ℝ) (isFin : ℝ → Bool)
    (boxes : List Box) (bounds : Option BoundsXZ) (p vel : Vec3)
    (px pz dt subDt : ℝ) :
    (ground px pz = none → gravityStage ground px pz vel dt = ⟨vel.x, 0, vel.z⟩) ∧
    (ground (substepCandidate isFin boxes bounds p vel subDt).x
        (substepCandidate isFin boxes bounds p vel subDt).z = none →
      substep ground isFin boxes bounds p vel subDt = (p, ⟨vel.x, 0, vel.z⟩)) := by
  constructor
  · intro hnone
    unfold gravityStage
    rw [hnone]
  · intro hnone
    simp only [substep, hnone]

/-- Witness for C6: with a sampler that always answers "no data",
gravity integration is suppressed and a sub-step fully reverts. -/
theorem tick_null_ground_failsafe_witness :
    gravityStage (fun _ _ => none) 0 0 ⟨3, 4, 5⟩ 0.016 = (⟨3, 0, 5⟩ : Vec3) ∧
    substep (fun _ _ => none) realFinite [] none ⟨1, 2, 3⟩ ⟨3, 4, 5⟩ 0.016 =
      ((⟨1, 2, 3⟩ : Vec3), (⟨3, 0, 5⟩ : Vec3)) :=
  ⟨(tick_null_ground_failsafe (fun _ _ => none) realFinite [] none ⟨1, 2, 3⟩ ⟨3, 4, 5⟩
      0 0 0.016 0.016).1 rfl,
   (tick_null_ground_failsafe (fun _ _ => none) realFinite [] none ⟨1, 2, 3⟩ ⟨3, 4, 5⟩
      0 0 0.016 0.016).2 rfl⟩

/-! ## Claim C7: edge-triggered jump -/

/-- Claim C7: jumping is edge-triggered.  A key-down while Space is not
held queues exactly one jump; a grounded frame with a queued jump sets
the vertical velocity to `JUMP_VELOCITY`, marks the player airborne and
consumes the request; a key-down repeat while Space is held queues
nothing new; and an airborne frame without a queued jump neither jumps
nor changes the vertical velocity. -/
theorem jump_edge_trigger (q : Bool) (vy : ℝ) :
    keydownSpace ⟨false, q⟩ = ⟨true, true⟩ ∧
    keydownSpace ⟨true, q⟩ = ⟨true, q⟩ ∧
    jumpStage true true vy = (false, false, JUMP_VELOCITY) ∧
    jumpStage false false vy = (false, false, vy) := by
  refine ⟨rfl, ?_, rfl, rfl⟩
  simp [keydownSpace]

/-! ## Claim C8: frame-boundary position invariant -/

/-- The clamp of `THREE.MathUtils` lands inside `[lo, hi]` when the
interval is non-empty. -/
theorem clampR_mem (x lo hi : ℝ) (h : lo ≤ hi) :
    lo ≤ clampR x lo hi ∧ clampR x lo hi ≤ hi :=
  ⟨le_max_left _ _, max_le h (min_le_left _ _)⟩

/-- `clampPlayerToTerrainBounds` with known bounds always produces a
position inside the shrunk footprint. -/
theorem clampBounds_inBounds (b : BoundsXZ) (p : Vec3)
    (hx : b.minX + boundsMargin ≤ b.maxX - boundsMargin)
    (hz : b.minZ + boundsMargin ≤ b.maxZ - boundsMargin) :
    inBoundsXZ b (clampPlayerToTerrainBounds (some b) p) := by
  simp only [clampPlayerToTerrainBounds, inBoundsXZ]
  exact ⟨(clampR_mem p.x _ _ hx).1, (clampR_mem p.x _ _ hx).2,
    (clampR_mem p.z _ _ hz).1, (clampR_mem p.z _ _ hz).2⟩

/-- A sub-step candidate position is always inside the shrunk footprint
(the clamp is the last XZ write of the candidate). -/
theorem substepCandidate_inBounds (isFin : ℝ → Bool) (boxes : List Box)
    (b : BoundsXZ) (p vel : Vec3) (subDt : ℝ)
    (hx : b.minX + boundsMargin ≤ b.maxX - boundsMargin)
    (hz : b.minZ + boundsMargin ≤ b.maxZ - boundsMargin) :
    inBoundsXZ b (substepCandidate isFin boxes (some b) p vel subDt) := by
  unfold substepCandidate
  exact clampBounds_inBounds b _ hx hz

/-- One sub-step keeps the player inside the shrunk footprint: the
snap-to-ground branch preserves the candidate's XZ, and the revert
branch restores the sub-step's start position. -/
theorem substep_inBounds (ground : ℝ → ℝ → Option ℝ) (isFin : ℝ → Bool)
    (boxes : List Box) (b : BoundsXZ) (p vel : Vec3) (subDt : ℝ)
    (hx : b.minX + boundsMargin ≤ b.maxX - boundsMargin)
    (hz : b.minZ + boundsMargin ≤ b.maxZ - boundsMargin)
    (hp : inBoundsXZ b p) :
    inBoundsXZ b (substep ground isFin boxes (some b) p vel subDt).1 := by
  have hcand := substepCandidate_inBounds isFin boxes b p vel subDt hx hz
  simp only [substep]
  split
  · split
    · exact ⟨hcand.1, hcand.2.1, hcand.2.2.1, hcand.2.2.2⟩
    · exact hcand
  · exact hp

/-- Claim C8: while terrain bounds are known and the shrunk footprint is
non-degenerate, a frame's sub-step loop keeps the player's XZ inside the
footprint shrunk by `EDGE_BUFFER + PLAYER_RADIUS + 0.05` on each side,
provided the frame starts inside it. -/
theorem frame_bounds_invariant (ground : ℝ → ℝ → Option ℝ) (isFin : ℝ → Bool)
    (boxes : List Box) (b : BoundsXZ) (n : ℕ) (p vel : Vec3) (subDt : ℝ)
    (hx : b.minX + boundsMargin ≤ b.maxX - boundsMargin)
    (hz : b.minZ + boundsMargin ≤ b.maxZ - boundsMargin)
    (hp : inBoundsXZ b p) :
    inBoundsXZ b (runSubsteps ground isFin boxes (some b) n p vel subDt).1 := by
  induction n generalizing p vel with
  | zero => exact hp
  | succ n ih =>
    simp only [runSubsteps]
    exact ih _ _ (substep_inBounds ground isFin boxes b p vel subDt hx hz hp)

/-- Witness for C8 on the 1 km footprint: three sub-steps from the
origin stay inside the shrunk bounds. -/
theorem frame_bounds_invariant_witness :
    inBoundsXZ ⟨-500, 500, -500, 500⟩
      (runSubsteps (fun _ _ => some 0) realFinite [] (some ⟨-500, 500, -500, 500⟩)
        3 ⟨0, 10, 0⟩ ⟨100, 0, 100⟩ 0.016).1 :=
  frame_bounds_invariant (fun _ _ => some 0) realFinite [] ⟨-500, 500, -500, 500⟩
    3 ⟨0, 10, 0⟩ ⟨100, 0, 100⟩ 0.016
    (by norm_num [boundsMargin, EDGE_BUFFER, PLAYER_RADIUS])
    (by norm_num [boundsMargin, EDGE_BUFFER, PLAYER_RADIUS])
    (by refine ⟨?_, ?_, ?_, ?_⟩ <;> norm_num [boundsMargin, EDGE_BUFFER, PLAYER_RADIUS])

/-! ## Claim C9: collider registry build step -/

/-- Clamp of a value already inside the interval. -/
theorem clampR_of_mem (x lo hi : ℝ) (h1 : lo ≤ x) (h2 : x ≤ hi) :
    clampR x lo hi = x := by
  unfold clampR
  rw [min_eq_right h2, max_eq_right h1]

/-- Clamp of a value below the interval. -/
theorem clampR_of_lt (x lo hi : ℝ) (h : x < lo) (hwf : lo ≤ hi) :
    clampR x lo hi = lo := by
  unfold clampR
  rw [min_eq_right (le_of_lt (lt_of_lt_of_le h hwf)), max_eq_left (le_of_lt h)]

/-- Clamp of a value above the interval. -/
theorem clampR_of_gt (x lo hi : ℝ) (h : hi < x) (hwf : lo ≤ hi) :
    clampR x lo hi = hi := by
  unfold clampR
  rw [min_eq_left (le_of_lt h), max_eq_right hwf]

/-- Trichotomy of the clamp. -/
theorem clampR_cases (x lo hi : ℝ) (hwf : lo ≤ hi) :
    (x < lo ∧ clampR x lo hi = lo) ∨ (lo ≤ x ∧ x ≤ hi ∧ clampR x lo hi = x) ∨
      (hi < x ∧ clampR x lo hi = hi) := by
  rcases lt_or_le x lo with h1 | h1
  · exact Or.inl ⟨h1, clampR_of_lt x lo hi h1 hwf⟩
  · rcases le_or_lt x hi with h2 | h2
    · exact Or.inr (Or.inl ⟨h1, h2, clampR_of_mem x lo hi h1 h2⟩)
    · exact Or.inr (Or.inr ⟨h2, clampR_of_gt x lo hi h2 hwf⟩)

/-! ## Claim C1: non-penetrating positions are fixed points -/

/-- A box whose vertical span misses the cylinder, or whose XZ closest
point is at least `radius + skin` away, produces no correction. -/
theorem resolveOneBoxXZ_noHit (p : Vec3) (b : Box) (radius height eyeOffset skin : ℝ)
    (hr : 0 ≤ radius + skin)
    (h : (p.y - eyeOffset + height < b.minY ∨ p.y - eyeOffset > b.maxY) ∨
      radius + skin ≤ distToBoxXZ p b) :
    resolveOneBoxXZ p b radius height eyeOffset skin = (p, false) := by
  simp only [resolveOneBoxXZ]
  by_cases hover : p.y - eyeOffset + height < b.minY ∨ p.y - eyeOffset > b.maxY
  · rw [if_pos hover]
  · rcases h with hcontra | hfar
    · exact absurd hcontra hover
    · have hs : (0 : ℝ) ≤ distSqXZ p b :=
        add_nonneg (mul_self_nonneg _) (mul_self_nonneg _)
      have hmul := mul_self_le_mul_self hr hfar
      unfold distToBoxXZ at hmul
      rw [Real.mul_self_sqrt hs] at hmul
      have hraw : (p.x - clampR p.x b.minX b.maxX) * (p.x - clampR p.x b.minX b.maxX) +
          (p.z - clampR p.z b.minZ b.maxZ) * (p.z - clampR p.z b.minZ b.maxZ) ≥
          (radius + skin) * (radius + skin) := by
        simpa [distSqXZ, deltaX, deltaZ] using hmul
      rw [if_neg hover, if_pos hraw]

/-- A pass over boxes that are all non-penetrating is a no-op. -/
theorem resolvePass_noHit (boxes : List Box) (p : Vec3)
    (radius height eyeOffset skin : ℝ) (hr : 0 ≤ radius + skin)
    (hboxes : ∀ b ∈ boxes,
      (p.y - eyeOffset + height < b.minY ∨ p.y - eyeOffset > b.maxY) ∨
      radius + skin ≤ distToBoxXZ p b) :
    resolvePass p boxes radius height eyeOffset skin = (p, false) := by
  unfold resolvePass
  induction boxes with
  | nil => rfl
  | cons b bs ih =>
    rw [List.foldl_cons]
    have h1 := resolveOneBoxXZ_noHit p b radius height eyeOffset skin hr
      (hboxes b (List.mem_cons_self b bs))
    simp only [h1]
    exact ih fun c hc => hboxes c (List.mem_cons_of_mem _ hc)

/-- The whole iteration loop leaves a non-penetrating position unchanged. -/
theorem resolveIters_noHit (fuel : ℕ) (p : Vec3) (boxes : List Box)
    (radius height eyeOffset skin : ℝ)
    (hpass : resolvePass p boxes radius height eyeOffset skin = (p, false)) :
    resolveIters fuel p boxes radius height eyeOffset skin = p := by
  cases fuel with
  | zero => rfl
  | succ n => simp [resolveIters, hpass]

/-- Claim C1: for a finite player position, if every registered box
either misses the player cylinder vertically or keeps its XZ closest
point at least `radius + skin` away, then `resolveCollisions` returns
the position unchanged; consequently re-invoking it is a no-op. -/
theorem resolveCollisions_no_penetration_noop (isFin : ℝ → Bool) (boxes : List Box)
    (p prev : Vec3) (radius height eyeOffset : ℝ) (maxIters : ℕ) (skin : ℝ)
    (hfin : (isFin p.x && isFin p.y && isFin p.z) = true)
    (hr : 0 ≤ radius + skin)
    (hboxes : ∀ b ∈ boxes,
      (p.y - eyeOffset + height < b.minY ∨ p.y - eyeOffset > b.maxY) ∨
      radius + skin ≤ distToBoxXZ p b) :
    resolveCollisions isFin boxes p prev radius height eyeOffset maxIters skin = p ∧
    resolveCollisions isFin boxes
      (resolveCollisions isFin boxes p prev radius height eyeOffset maxIters skin)
      prev radius height eyeOffset maxIters skin = p := by
  have hiters := resolveIters_noHit maxIters p boxes radius height eyeOffset skin
    (resolvePass_noHit boxes p radius height eyeOffset skin hr hboxes)
  have h1 : resolveCollisions isFin boxes p prev radius height eyeOffset maxIters skin = p := by
    unfold resolveCollisions
    simp only [hiters]
    rw [if_pos hfin]
  exact ⟨h1, by rw [h1, h1]⟩

/-- Witness for C1: a position 3 m away from a 2 m cube stays fixed, and
a second resolution is also a no-op. -/
theorem resolveCollisions_no_penetration_noop_witness :
    resolveCollisions realFinite [⟨0, 0, 0, 2, 2, 2⟩] ⟨5, 1, 1⟩ ⟨0, 0, 0⟩
      0.45 1.8 1.7 4 0.01 = (⟨5, 1, 1⟩ : Vec3) ∧
    resolveCollisions realFinite [⟨0, 0, 0, 2, 2, 2⟩]
      (resolveCollisions realFinite [⟨0, 0, 0, 2, 2, 2⟩] ⟨5, 1, 1⟩ ⟨0, 0, 0⟩
        0.45 1.8 1.7 4 0.01) ⟨0, 0, 0⟩ 0.45 1.8 1.7 4 0.01 = (⟨5, 1, 1⟩ : Vec3) :=
  resolveCollisions_no_penetration_noop realFinite [⟨0, 0, 0, 2, 2, 2⟩] ⟨5, 1, 1⟩
    ⟨0, 0, 0⟩ 0.45 1.8 1.7 4 0.01 (by simp [realFinite]) (by norm_num)
    (by
      intro b hb
      rw [List.mem_singleton] at hb
      subst hb
      right
      show (0.45 : ℝ) + 0.01 ≤ distToBoxXZ ⟨5, 1, 1⟩ ⟨0, 0, 0, 2, 2, 2⟩
      unfold distToBoxXZ distSqXZ deltaX deltaZ
      norm_num [clampR, min_def, max_def]
      rw [show (9 : ℝ) = 3 ^ 2 by norm_num, Real.sqrt_sq (by norm_num : (0 : ℝ) ≤ 3)]
      norm_num)

/-! ## Claim C2: single-box push-out lands exactly on the skin radius -/

/-- A position whose squared XZ distance to the box is at least
`(radius + skin)^2` gets no correction (regardless of vertical overlap). -/
theorem resolveOneBoxXZ_noHit_of_far (q : Vec3) (b : Box)
    (radius height eyeOffset skin : ℝ)
    (hge : (radius + skin) * (radius + skin) ≤ distSqXZ q b) :
    resolveOneBoxXZ q b radius height eyeOffset skin = (q, false) := by
  simp only [resolveOneBoxXZ]
  by_cases hov : q.y - eyeOffset + height < b.minY ∨ q.y - eyeOffset > b.maxY
  · rw [if_pos hov]
  · have hraw : (q.x - clampR q.x b.minX b.maxX) * (q.x - clampR q.x b.minX b.maxX) +
        (q.z - clampR q.z b.minZ b.maxZ) * (q.z - clampR q.z b.minZ b.maxZ) ≥
        (radius + skin) * (radius + skin) := by
      simpa [distSqXZ, deltaX, deltaZ] using hge
    rw [if_neg hov, if_pos hraw]

/-- The normal (non-degenerate) correction branch, written explicitly. -/
theorem resolveOneBoxXZ_hit_normal (p : Vec3) (b : Box)
    (radius height eyeOffset skin : ℝ)
    (hover : ¬(p.y - eyeOffset + height < b.minY ∨ p.y - eyeOffset > b.maxY))
    (hpen : distSqXZ p b < (radius + skin) * (radius + skin))
    (hdeg : ¬(distSqXZ p b < 1e-12)) :
    resolveOneBoxXZ p b radius height eyeOffset skin =
      ({ p with
          x := p.x + deltaX p b / Real.sqrt (distSqXZ p b) *
            (radius + skin - Real.sqrt (distSqXZ p b)),
          z := p.z + deltaZ p b / Real.sqrt (distSqXZ p b) *
            (radius + skin - Real.sqrt (distSqXZ p b)) }, true) := by
  have hpen' : (p.x - clampR p.x b.minX b.maxX) * (p.x - clampR p.x b.minX b.maxX) +
      (p.z - clampR p.z b.minZ b.maxZ) * (p.z - clampR p.z b.minZ b.maxZ) <
      (radius + skin) * (radius + skin) := by
    simpa [distSqXZ, deltaX, deltaZ] using hpen
  have hdeg' : ¬((p.x - clampR p.x b.minX b.maxX) * (p.x - clampR p.x b.minX b.maxX) +
      (p.z - clampR p.z b.minZ b.maxZ) * (p.z - clampR p.z b.minZ b.maxZ) < 1e-12) := by
    simpa [distSqXZ, deltaX, deltaZ] using hdeg
  simp only [resolveOneBoxXZ]
  rw [if_neg hover, if_neg (not_le.mpr hpen'), if_neg hdeg']
  simp only [distSqXZ, deltaX, deltaZ]

/-- The degenerate correction branch produces one of the four pushed
positions, in the tie-break order -X, +X, -Z, +Z. -/
theorem resolveOneBoxXZ_hit_degenerate_form (p : Vec3) (b : Box)
    (radius height eyeOffset skin : ℝ)
    (hover : ¬(p.y - eyeOffset + height < b.minY ∨ p.y - eyeOffset > b.maxY))
    (hpen : distSqXZ p b < (radius + skin) * (radius + skin))
    (hdeg : distSqXZ p b < 1e-12) :
    (resolveOneBoxXZ p b radius height eyeOffset skin).1 =
        { p with x := b.minX - (radius + skin) } ∨
    (resolveOneBoxXZ p b radius height eyeOffset skin).1 =
        { p with x := b.maxX + (radius + skin) } ∨
    (resolveOneBoxXZ p b radius height eyeOffset skin).1 =
        { p with z := b.minZ - (radius + skin) } ∨
    (resolveOneBoxXZ p b radius height eyeOffset skin).1 =
        { p with z := b.maxZ + (radius + skin) } := by
  have hpen' : (p.x - clampR p.x b.minX b.maxX) * (p.x - clampR p.x b.minX b.maxX) +
      (p.z - clampR p.z b.minZ b.maxZ) * (p.z - clampR p.z b.minZ b.maxZ) <
      (radius + skin) * (radius + skin) := by
    simpa [distSqXZ, deltaX, deltaZ] using hpen
  have hdeg' : (p.x - clampR p.x b.minX b.maxX) * (p.x - clampR p.x b.minX b.maxX) +
      (p.z - clampR p.z b.minZ b.maxZ) * (p.z - clampR p.z b.minZ b.maxZ) < 1e-12 := by
    simpa [distSqXZ, deltaX, deltaZ] using hdeg
  simp only [resolveOneBoxXZ]
  rw [if_neg hover, if_neg (not_le.mpr hpen'), if_pos hdeg']
  split
  · exact Or.inl rfl
  · split
    · exact Or.inr (Or.inl rfl)
    · split
      · exact Or.inr (Or.inr (Or.inl rfl))
      · exact Or.inr (Or.inr (Or.inr rfl))

/-- Clamp stability under an outward push: scaling the offset from the
closest point by `s ≥ 1` keeps the closest point fixed and scales the
offset. -/
theorem clampR_shift (x lo hi dd rr : ℝ) (hwf : lo ≤ hi) (hd : 0 < dd)
    (hdr : dd ≤ rr) :
    clampR (x + (x - clampR x lo hi) / dd * (rr - dd)) lo hi = clampR x lo hi ∧
    (x + (x - clampR x lo hi) / dd * (rr - dd)) -
        clampR (x + (x - clampR x lo hi) / dd * (rr - dd)) lo hi =
      (x - clampR x lo hi) * (rr / dd) := by
  have hdne : dd ≠ 0 := ne_of_gt hd
  have hrd : 0 ≤ rr - dd := sub_nonneg.mpr hdr
  rcases clampR_cases x lo hi hwf with ⟨hlt, hc⟩ | ⟨h1, h2, hc⟩ | ⟨hgt, hc⟩
  · rw [hc]
    have hneg : (x - lo) / dd * (rr - dd) ≤ 0 :=
      mul_nonpos_of_nonpos_of_nonneg
        (div_nonpos_of_nonpos_of_nonneg (by linarith) hd.le) hrd
    have hx' : x + (x - lo) / dd * (rr - dd) < lo := by linarith
    rw [clampR_of_lt _ _ _ hx' hwf]
    refine ⟨rfl, ?_⟩
    field_simp
    ring
  · rw [hc]
    simp only [sub_self, zero_div, zero_mul, add_zero]
    refine ⟨clampR_of_mem _ _ _ h1 h2, ?_⟩
    rw [clampR_of_mem _ _ _ h1 h2]
    exact sub_self x
  · rw [hc]
    have hpos : 0 ≤ (x - hi) / dd * (rr - dd) :=
      mul_nonneg (div_nonneg (by linarith) hd.le) hrd
    have hx' : hi < x + (x - hi) / dd * (rr - dd) := by linarith
    rw [clampR_of_gt _ _ _ hx' hwf]
    refine ⟨rfl, ?_⟩
    field_simp
    ring

/-- After a normal-branch push-out the closest point is unchanged and
both offsets are scaled to length `radius + skin`. -/
theorem resolveOneBoxXZ_pushout_deltas (p : Vec3) (b : Box)
    (radius height eyeOffset skin : ℝ)
    (hwfx : b.minX ≤ b.maxX) (hwfz : b.minZ ≤ b.maxZ) (hr : 0 < radius + skin)
    (hover : ¬(p.y - eyeOffset + height < b.minY ∨ p.y - eyeOffset > b.maxY))
    (hpen : distSqXZ p b < (radius + skin) * (radius + skin))
    (hdeg : ¬(distSqXZ p b < 1e-12)) :
    clampR (resolveOneBoxXZ p b radius height eyeOffset skin).1.x b.minX b.maxX =
      clampR p.x b.minX b.maxX ∧
    deltaX (resolveOneBoxXZ p b radius height eyeOffset skin).1 b =
      deltaX p b * ((radius + skin) / Real.sqrt (distSqXZ p b)) ∧
    clampR (resolveOneBoxXZ p b radius height eyeOffset skin).1.z b.minZ b.maxZ =
      clampR p.z b.minZ b.maxZ ∧
    deltaZ (resolveOneBoxXZ p b radius height eyeOffset skin).1 b =
      deltaZ p b * ((radius + skin) / Real.sqrt (distSqXZ p b)) := by
  have hsq0 : (0 : ℝ) ≤ distSqXZ p b :=
    add_nonneg (mul_self_nonneg _) (mul_self_nonneg _)
  have hdpos : 0 < Real.sqrt (distSqXZ p b) :=
    Real.sqrt_pos.mpr (lt_of_lt_of_le (by norm_num) (not_lt.mp hdeg))
  have hdr : Real.sqrt (distSqXZ p b) ≤ radius + skin := by
    have h1 : Real.sqrt (distSqXZ p b) <
        Real.sqrt ((radius + skin) * (radius + skin)) := Real.sqrt_lt_sqrt hsq0 hpen
    rw [Real.sqrt_mul_self hr.le] at h1
    exact h1.le
  obtain ⟨hcx, hdx⟩ := clampR_shift p.x b.minX b.maxX (Real.sqrt (distSqXZ p b))
    (radius + skin) hwfx hdpos hdr
  obtain ⟨hcz, hdz⟩ := clampR_shift p.z b.minZ b.maxZ (Real.sqrt (distSqXZ p b))
    (radius + skin) hwfz hdpos hdr
  rw [resolveOneBoxXZ_hit_normal p b radius height eyeOffset skin hover hpen hdeg]
  dsimp only
  unfold deltaX deltaZ
  exact ⟨hcx, hdx, hcz, hdz⟩

/-- A normal-branch push-out lands at XZ distance exactly `radius + skin`
from the box's closest point. -/
theorem resolveOneBoxXZ_pushout_dist (p : Vec3) (b : Box)
    (radius height eyeOffset skin : ℝ)
    (hwfx : b.minX ≤ b.maxX) (hwfz : b.minZ ≤ b.maxZ) (hr : 0 < radius + skin)
    (hover : ¬(p.y - eyeOffset + height < b.minY ∨ p.y - eyeOffset > b.maxY))
    (hpen : distSqXZ p b < (radius + skin) * (radius + skin))
    (hdeg : ¬(distSqXZ p b < 1e-12)) :
    distToBoxXZ (resolveOneBoxXZ p b radius height eyeOffset skin).1 b =
      radius + skin := by
  obtain ⟨hcx, hdx, hcz, hdz⟩ := resolveOneBoxXZ_pushout_deltas p b radius height
    eyeOffset skin hwfx hwfz hr hover hpen hdeg
  have hsq0 : (0 : ℝ) ≤ distSqXZ p b :=
    add_nonneg (mul_self_nonneg _) (mul_self_nonneg _)
  set d := Real.sqrt (distSqXZ p b) with hddef
  have hdpos : 0 < d :=
    Real.sqrt_pos.mpr (lt_of_lt_of_le (by norm_num) (not_lt.mp hdeg))
  have hd2 : d * d = distSqXZ p b := Real.mul_self_sqrt hsq0
  unfold distToBoxXZ
  have key : distSqXZ (resolveOneBoxXZ p b radius height eyeOffset skin).1 b =
      (radius + skin) * (radius + skin) := by
    unfold distSqXZ
    rw [hdx, hdz]
    have expand : deltaX p b * ((radius + skin) / d) * (deltaX p b * ((radius + skin) / d)) +
        deltaZ p b * ((radius + skin) / d) * (deltaZ p b * ((radius + skin) / d)) =
        (deltaX p b * deltaX p b + deltaZ p b * deltaZ p b) *
          ((radius + skin) / d * ((radius + skin) / d)) := by ring
    rw [expand]
    have hbase : deltaX p b * deltaX p b + deltaZ p b * deltaZ p b = distSqXZ p b := rfl
    rw [hbase, ← hd2]
    field_simp
  rw [key, Real.sqrt_mul_self hr.le]

/-- A degenerate push-out from inside the footprint lands at XZ distance
exactly `radius + skin` from the box. -/
theorem resolveOneBoxXZ_degenerate_dist (p : Vec3) (b : Box)
    (radius height eyeOffset skin : ℝ)
    (hwfx : b.minX ≤ b.maxX) (hwfz : b.minZ ≤ b.maxZ) (hr : 0 < radius + skin)
    (hover : ¬(p.y - eyeOffset + height < b.minY ∨ p.y - eyeOffset > b.maxY))
    (hpen : distSqXZ p b < (radius + skin) * (radius + skin))
    (hdeg : distSqXZ p b < 1e-12)
    (hin : b.minX ≤ p.x ∧ p.x ≤ b.maxX ∧ b.minZ ≤ p.z ∧ p.z ≤ b.maxZ) :
    distToBoxXZ (resolveOneBoxXZ p b radius height eyeOffset skin).1 b =
      radius + skin := by
  obtain ⟨hx1, hx2, hz1, hz2⟩ := hin
  have hcx : clampR p.x b.minX b.maxX = p.x := clampR_of_mem _ _ _ hx1 hx2
  have hcz : clampR p.z b.minZ b.maxZ = p.z := clampR_of_mem _ _ _ hz1 hz2
  rcases resolveOneBoxXZ_hit_degenerate_form p b radius height eyeOffset skin
    hover hpen hdeg with hq | hq | hq | hq
  · rw [hq]
    unfold distToBoxXZ distSqXZ deltaX deltaZ
    dsimp only
    rw [clampR_of_lt _ _ _ (by linarith : b.minX - (radius + skin) < b.minX) hwfx, hcz]
    rw [show (b.minX - (radius + skin) - b.minX) * (b.minX - (radius + skin) - b.minX) +
        (p.z - p.z) * (p.z - p.z) = (radius + skin) * (radius + skin) from by ring]
    exact Real.sqrt_mul_self hr.le
  · rw [hq]
    unfold distToBoxXZ distSqXZ deltaX deltaZ
    dsimp only
    rw [clampR_of_gt _ _ _ (by linarith : b.maxX < b.maxX + (radius + skin)) hwfx, hcz]
    rw [show (b.maxX + (radius + skin) - b.maxX) * (b.maxX + (radius + skin) - b.maxX) +
        (p.z - p.z) * (p.z - p.z) = (radius + skin) * (radius + skin) from by ring]
    exact Real.sqrt_mul_self hr.le
  · rw [hq]
    unfold distToBoxXZ distSqXZ deltaX deltaZ
    dsimp only
    rw [clampR_of_lt _ _ _ (by linarith : b.minZ - (radius + skin) < b.minZ) hwfz, hcx]
    rw [show (p.x - p.x) * (p.x - p.x) +
        (b.minZ - (radius + skin) - b.minZ) * (b.minZ - (radius + skin) - b.minZ) =
        (radius + skin) * (radius + skin) from by ring]
    exact Real.sqrt_mul_self hr.le
  · rw [hq]
    unfold distToBoxXZ distSqXZ deltaX deltaZ
    dsimp only
    rw [clampR_of_gt _ _ _ (by linarith : b.maxZ < b.maxZ + (radius + skin)) hwfz, hcx]
    rw [show (p.x - p.x) * (p.x - p.x) +
        (b.maxZ + (radius + skin) - b.maxZ) * (b.maxZ + (radius + skin) - b.maxZ) =
        (radius + skin) * (radius + skin) from by ring]
    exact Real.sqrt_mul_self hr.le

/-- After a correction, the same box produces no further correction in
the next pass. -/
theorem resolveOneBoxXZ_after_hit (p : Vec3) (b : Box)
    (radius height eyeOffset skin : ℝ)
    (hwfx : b.minX ≤ b.maxX) (hwfz : b.minZ ≤ b.maxZ) (hr : 0 < radius + skin)
    (hover : ¬(p.y - eyeOffset + height < b.minY ∨ p.y - eyeOffset > b.maxY))
    (hpen : distSqXZ p b < (radius + skin) * (radius + skin)) :
    resolveOneBoxXZ (resolveOneBoxXZ p b radius height eyeOffset skin).1 b
      radius height eyeOffset skin =
      ((resolveOneBoxXZ p b radius height eyeOffset skin).1, false) := by
  by_cases hdeg : distSqXZ p b < 1e-12
  · rcases resolveOneBoxXZ_hit_degenerate_form p b radius height eyeOffset skin
      hover hpen hdeg with hq | hq | hq | hq
    · rw [hq]
      apply resolveOneBoxXZ_noHit_of_far
      unfold distSqXZ deltaX deltaZ
      dsimp only
      rw [clampR_of_lt _ _ _ (by linarith : b.minX - (radius + skin) < b.minX) hwfx]
      nlinarith [mul_self_nonneg (p.z - clampR p.z b.minZ b.maxZ)]
    · rw [hq]
      apply resolveOneBoxXZ_noHit_of_far
      unfold distSqXZ deltaX deltaZ
      dsimp only
      rw [clampR_of_gt _ _ _ (by linarith : b.maxX < b.maxX + (radius + skin)) hwfx]
      nlinarith [mul_self_nonneg (p.z - clampR p.z b.minZ b.maxZ)]
    · rw [hq]
      apply resolveOneBoxXZ_noHit_of_far
      unfold distSqXZ deltaX deltaZ
      dsimp only
      rw [clampR_of_lt _ _ _ (by linarith : b.minZ - (radius + skin) < b.minZ) hwfz]
      nlinarith [mul_self_nonneg (p.x - clampR p.x b.minX b.maxX)]
    · rw [hq]
      apply resolveOneBoxXZ_noHit_of_far
      unfold distSqXZ deltaX deltaZ
      dsimp only
      rw [clampR_of_gt _ _ _ (by linarith : b.maxZ < b.maxZ + (radius + skin)) hwfz]
      nlinarith [mul_self_nonneg (p.x - clampR p.x b.minX b.maxX)]
  · apply resolveOneBoxXZ_noHit_of_far
    have hd := resolveOneBoxXZ_pushout_dist p b radius height eyeOffset skin
      hwfx hwfz hr hover hpen hdeg
    unfold distToBoxXZ at hd
    have hq0 : (0 : ℝ) ≤ distSqXZ (resolveOneBoxXZ p b radius height eyeOffset skin).1 b :=
      add_nonneg (mul_self_nonneg _) (mul_self_nonneg _)
    have heq : distSqXZ (resolveOneBoxXZ p b radius height eyeOffset skin).1 b =
        (radius + skin) * (radius + skin) := by
      rw [← Real.mul_self_sqrt hq0, hd]
    exact le_of_eq heq.symm

/-- Unfolding equation for one step of the iteration loop. -/
theorem resolveIters_succ (n : ℕ) (p : Vec3) (boxes : List Box)
    (radius height eyeOffset skin : ℝ) :
    resolveIters (n + 1) p boxes radius height eyeOffset skin =
      (if (resolvePass p boxes radius height eyeOffset skin).2 then
        resolveIters n (resolvePass p boxes radius height eyeOffset skin).1 boxes
          radius height eyeOffset skin
      else (resolvePass p boxes radius height eyeOffset skin).1) := rfl

/-- With exactly one penetrated box, the four-pass loop performs the
single correction and then stops. -/
theorem resolveIters_single_box (p : Vec3) (b : Box)
    (radius height eyeOffset skin : ℝ)
    (hwfx : b.minX ≤ b.maxX) (hwfz : b.minZ ≤ b.maxZ) (hr : 0 < radius + skin)
    (hover : ¬(p.y - eyeOffset + height < b.minY ∨ p.y - eyeOffset > b.maxY))
    (hpen : distSqXZ p b < (radius + skin) * (radius + skin)) :
    resolveIters 4 p [b] radius height eyeOffset skin =
      (resolveOneBoxXZ p b radius height eyeOffset skin).1 := by
  have hpen' : (p.x - clampR p.x b.minX b.maxX) * (p.x - clampR p.x b.minX b.maxX) +
      (p.z - clampR p.z b.minZ b.maxZ) * (p.z - clampR p.z b.minZ b.maxZ) <
      (radius + skin) * (radius + skin) := by
    simpa [distSqXZ, deltaX, deltaZ] using hpen
  have hhit : (resolveOneBoxXZ p b radius height eyeOffset skin).2 = true := by
    simp only [resolveOneBoxXZ]
    rw [if_neg hover, if_neg (not_le.mpr hpen')]
    split
    · repeat' split
      all_goals rfl
    · rfl
  have hD := resolveOneBoxXZ_after_hit p b radius height eyeOffset skin
    hwfx hwfz hr hover hpen
  have hpass1 : resolvePass p [b] radius height eyeOffset skin =
      ((resolveOneBoxXZ p b radius height eyeOffset skin).1, true) := by
    unfold resolvePass
    simp [hhit]
  have hpass2 : resolvePass (resolveOneBoxXZ p b radius height eyeOffset skin).1 [b]
      radius height eyeOffset skin =
      ((resolveOneBoxXZ p b radius height eyeOffset skin).1, false) := by
    unfold resolvePass
    simp [hD]
  rw [show (4 : ℕ) = 3 + 1 from rfl, resolveIters_succ, hpass1]
  simp only [if_true]
  exact resolveIters_noHit 3 _ [b] radius height eyeOffset skin hpass2

/-- In the degenerate branch the correction pushes the player out of
whichever of the four side faces is nearest, with ties resolved in the
source's test order -X, +X, -Z, +Z, placing the player exactly
`radius + skin` beyond that face. -/
theorem resolveOneBoxXZ_degenerate_face (p : Vec3) (b : Box)
    (radius height eyeOffset skin : ℝ)
    (hover : ¬(p.y - eyeOffset + height < b.minY ∨ p.y - eyeOffset > b.maxY))
    (hpen : distSqXZ p b < (radius + skin) * (radius + skin))
    (hdeg : distSqXZ p b < 1e-12) :
    (|p.x - b.minX| ≤ |b.maxX - p.x| ∧ |p.x - b.minX| ≤ |p.z - b.minZ| ∧
        |p.x - b.minX| ≤ |b.maxZ - p.z| →
      (resolveOneBoxXZ p b radius height eyeOffset skin).1 =
        { p with x := b.minX - (radius + skin) }) ∧
    (|b.maxX - p.x| < |p.x - b.minX| ∧ |b.maxX - p.x| ≤ |p.z - b.minZ| ∧
        |b.maxX - p.x| ≤ |b.maxZ - p.z| →
      (resolveOneBoxXZ p b radius height eyeOffset skin).1 =
        { p with x := b.maxX + (radius + skin) }) ∧
    (|p.z - b.minZ| < |p.x - b.minX| ∧ |p.z - b.minZ| < |b.maxX - p.x| ∧
        |p.z - b.minZ| ≤ |b.maxZ - p.z| →
      (resolveOneBoxXZ p b radius height eyeOffset skin).1 =
        { p with z := b.minZ - (radius + skin) }) ∧
    (|b.maxZ - p.z| < |p.x - b.minX| ∧ |b.maxZ - p.z| < |b.maxX - p.x| ∧
        |b.maxZ - p.z| < |p.z - b.minZ| →
      (resolveOneBoxXZ p b radius height eyeOffset skin).1 =
        { p with z := b.maxZ + (radius + skin) }) := by
  have hpen' : (p.x - clampR p.x b.minX b.maxX) * (p.x - clampR p.x b.minX b.maxX) +
      (p.z - clampR p.z b.minZ b.maxZ) * (p.z - clampR p.z b.minZ b.maxZ) <
      (radius + skin) * (radius + skin) := by
    simpa [distSqXZ, deltaX, deltaZ] using hpen
  have hdeg' : (p.x - clampR p.x b.minX b.maxX) * (p.x - clampR p.x b.minX b.maxX) +
      (p.z - clampR p.z b.minZ b.maxZ) * (p.z - clampR p.z b.minZ b.maxZ) < 1e-12 := by
    simpa [distSqXZ, deltaX, deltaZ] using hdeg
  refine ⟨fun h => ?_, fun h => ?_, fun h => ?_, fun h => ?_⟩ <;>
    obtain ⟨h1, h2, h3⟩ := h <;>
    simp only [resolveOneBoxXZ] <;>
    rw [if_neg hover, if_neg (not_le.mpr hpen'), if_pos hdeg']
  · rw [min_eq_left h1, min_eq_left h2, min_eq_left h3, if_pos rfl]
  · rw [min_eq_right h1.le, min_eq_left h2, min_eq_left h3,
      if_neg (ne_of_lt h1), if_pos rfl]
  · rw [min_eq_right (le_min h1.le h2.le), min_eq_left h3,
      if_neg (ne_of_lt h1), if_neg (ne_of_lt h2), if_pos rfl]
  · rw [min_eq_right (le_min (le_min h1.le h2.le) h3.le),
      if_neg (ne_of_lt h1), if_neg (ne_of_lt h2), if_neg (ne_of_lt h3)]

/-- Claim C2: with exactly one registered, well-formed box penetrated by
the player (vertical overlap and XZ closest-point distance below
`radius + skin`), one call to `resolveCollisions` performs the single
one-box correction; the correction leaves Y unchanged, and the resolved
position lies at XZ distance exactly `radius + skin` from the box: along
the normalized closest-point direction when the distance is
non-degenerate, and, when it is degenerate, pushed out of whichever of
the four side faces is nearest — the four conditionals spell out the
tie-break order -X, +X, -Z, +Z — at exactly `radius + skin` from that
face (exactly `radius + skin` from the box when the position is inside
the footprint). -/
theorem resolveCollisions_single_box_pushout (b : Box) (p prev : Vec3)
    (radius height eyeOffset skin : ℝ)
    (hwfx : b.minX ≤ b.maxX) (hwfz : b.minZ ≤ b.maxZ) (hr : 0 < radius + skin)
    (hover : ¬(p.y - eyeOffset + height < b.minY ∨ p.y - eyeOffset > b.maxY))
    (hpen : distSqXZ p b < (radius + skin) * (radius + skin)) :
    resolveCollisions realFinite [b] p prev radius height eyeOffset 4 skin =
      (resolveOneBoxXZ p b radius height eyeOffset skin).1 ∧
    (resolveOneBoxXZ p b radius height eyeOffset skin).1.y = p.y ∧
    (¬(distSqXZ p b < 1e-12) →
      (resolveOneBoxXZ p b radius height eyeOffset skin).1.x =
        p.x + deltaX p b / Real.sqrt (distSqXZ p b) *
          (radius + skin - Real.sqrt (distSqXZ p b)) ∧
      (resolveOneBoxXZ p b radius height eyeOffset skin).1.z =
        p.z + deltaZ p b / Real.sqrt (distSqXZ p b) *
          (radius + skin - Real.sqrt (distSqXZ p b)) ∧
      distToBoxXZ (resolveOneBoxXZ p b radius height eyeOffset skin).1 b =
        radius + skin) ∧
    (distSqXZ p b < 1e-12 →
      ((b.minX ≤ p.x ∧ p.x ≤ b.maxX ∧ b.minZ ≤ p.z ∧ p.z ≤ b.maxZ) →
        distToBoxXZ (resolveOneBoxXZ p b radius height eyeOffset skin).1 b =
          radius + skin) ∧
      (|p.x - b.minX| ≤ |b.maxX - p.x| ∧ |p.x - b.minX| ≤ |p.z - b.minZ| ∧
          |p.x - b.minX| ≤ |b.maxZ - p.z| →
        (resolveOneBoxXZ p b radius height eyeOffset skin).1 =
          { p with x := b.minX - (radius + skin) }) ∧
      (|b.maxX - p.x| < |p.x - b.minX| ∧ |b.maxX - p.x| ≤ |p.z - b.minZ| ∧
          |b.maxX - p.x| ≤ |b.maxZ - p.z| →
        (resolveOneBoxXZ p b radius height eyeOffset skin).1 =
          { p with x := b.maxX + (radius + skin) }) ∧
      (|p.z - b.minZ| < |p.x - b.minX| ∧ |p.z - b.minZ| < |b.maxX - p.x| ∧
          |p.z - b.minZ| ≤ |b.maxZ - p.z| →
        (resolveOneBoxXZ p b radius height eyeOffset skin).1 =
          { p with z := b.minZ - (radius + skin) }) ∧
      (|b.maxZ - p.z| < |p.x - b.minX| ∧ |b.maxZ - p.z| < |b.maxX - p.x| ∧
          |b.maxZ - p.z| < |p.z - b.minZ| →
        (resolveOneBoxXZ p b radius height eyeOffset skin).1 =
          { p with z := b.maxZ + (radius + skin) })) := by
  refine ⟨?_, resolveOneBoxXZ_y p b radius height eyeOffset skin, ?_, ?_⟩
  · unfold resolveCollisions
    simp only [resolveIters_single_box p b radius height eyeOffset skin
      hwfx hwfz hr hover hpen]
    simp [realFinite]
  · intro hdeg
    refine ⟨?_, ?_, resolveOneBoxXZ_pushout_dist p b radius height eyeOffset skin
      hwfx hwfz hr hover hpen hdeg⟩
    · rw [resolveOneBoxXZ_hit_normal p b radius height eyeOffset skin hover hpen hdeg]
    · rw [resolveOneBoxXZ_hit_normal p b radius height eyeOffset skin hover hpen hdeg]
  · intro hdeg
    obtain ⟨hf1, hf2, hf3, hf4⟩ := resolveOneBoxXZ_degenerate_face p b radius height
      eyeOffset skin hover hpen hdeg
    exact ⟨fun hin => resolveOneBoxXZ_degenerate_dist p b radius height eyeOffset skin
      hwfx hwfz hr hover hpen hdeg hin, hf1, hf2, hf3, hf4⟩

/-- Witness for C2.  First, the spec's Scenario B: the box spans
`(0,0,0)`-`(2,0,2)`, `radius = 0.5`, `skin = 0`; a player at `(1, 1.7, 1)`
(XZ center, a four-way tie) is resolved to `(-0.5, 1.7, 1)` — the
tie-break selects the -X face — at XZ distance exactly `0.5` from the
box.  Second, a player at `(1, 1.7, 1.8)`, whose unique nearest face is
+Z (0.2 m versus 1, 1 and 1.8 m), is resolved to `(1, 1.7, 2.5)` — out
of the +Z face — showing the selection follows the nearest face rather
than a fixed one. -/
theorem resolveCollisions_single_box_pushout_witness :
    (resolveCollisions realFinite [⟨0, 0, 0, 2, 0, 2⟩] ⟨1, 1.7, 1⟩ ⟨0, 0, 0⟩
        0.5 1.8 1.7 4 0 = (⟨-0.5, 1.7, 1⟩ : Vec3) ∧
      distToBoxXZ ⟨-0.5, 1.7, 1⟩ ⟨0, 0, 0, 2, 0, 2⟩ = 0.5) ∧
    resolveCollisions realFinite [⟨0, 0, 0, 2, 0, 2⟩] ⟨1, 1.7, 1.8⟩ ⟨0, 0, 0⟩
      0.5 1.8 1.7 4 0 = (⟨1, 1.7, 2.5⟩ : Vec3) := by
  have hB := resolveCollisions_single_box_pushout ⟨0, 0, 0, 2, 0, 2⟩ ⟨1, 1.7, 1⟩
    ⟨0, 0, 0⟩ 0.5 1.8 1.7 0 (by norm_num) (by norm_num) (by norm_num)
    (by norm_num)
    (by
      show distSqXZ ⟨1, 1.7, 1⟩ ⟨0, 0, 0, 2, 0, 2⟩ < (0.5 + 0) * (0.5 + 0)
      unfold distSqXZ deltaX deltaZ
      norm_num [clampR, min_def, max_def])
  have hZ := resolveCollisions_single_box_pushout ⟨0, 0, 0, 2, 0, 2⟩ ⟨1, 1.7, 1.8⟩
    ⟨0, 0, 0⟩ 0.5 1.8 1.7 0 (by norm_num) (by norm_num) (by norm_num)
    (by norm_num)
    (by
      show distSqXZ ⟨1, 1.7, 1.8⟩ ⟨0, 0, 0, 2, 0, 2⟩ < (0.5 + 0) * (0.5 + 0)
      unfold distSqXZ deltaX deltaZ
      norm_num [clampR, min_def, max_def])
  have hdegB : distSqXZ (⟨1, 1.7, 1⟩ : Vec3) ⟨0, 0, 0, 2, 0, 2⟩ < 1e-12 := by
    unfold distSqXZ deltaX deltaZ
    norm_num [clampR, min_def, max_def]
  have hdegZ : distSqXZ (⟨1, 1.7, 1.8⟩ : Vec3) ⟨0, 0, 0, 2, 0, 2⟩ < 1e-12 := by
    unfold distSqXZ deltaX deltaZ
    norm_num [clampR, min_def, max_def]
  have hresB : (resolveOneBoxXZ ⟨1, 1.7, 1⟩ ⟨0, 0, 0, 2, 0, 2⟩ 0.5 1.8 1.7 0).1 =
      (⟨-0.5, 1.7, 1⟩ : Vec3) := by
    have hface := ((hB.2.2.2 hdegB).2.1 : _) (by norm_num [abs_of_nonneg])
    rw [hface]
    norm_num
  have hresZ : (resolveOneBoxXZ ⟨1, 1.7, 1.8⟩ ⟨0, 0, 0, 2, 0, 2⟩ 0.5 1.8 1.7 0).1 =
      (⟨1, 1.7, 2.5⟩ : Vec3) := by
    have hface := ((hZ.2.2.2 hdegZ).2.2.2.2 : _) (by norm_num [abs_of_nonneg])
    rw [hface]
    norm_num
  refine ⟨⟨?_, ?_⟩, ?_⟩
  · rw [hB.1, hresB]
  · have hd := (hB.2.2.2 hdegB).1 (by norm_num)
    rw [hresB] at hd
    convert hd using 2
    norm_num
  · rw [hZ.1, hresZ]

/-! ## Claim C3: height query domain and range -/

/-- Every stored height sample lies in the shifted elevation range. -/
theorem heightSample_bounds (img : ImageData) (ix iy : ℕ) :
    0 ≤ heightSample img ix iy ∧ heightSample img ix iy ≤ ELEV_MAX_M - ELEV_MIN_M := by
  simp only [heightSample, sampleGray01]
  have hg0 : (0 : ℚ) ≤ ((img.gray (min (img.width - 1) (ix * computeStride img.width img.height))
      (min (img.height - 1) (iy * computeStride img.width img.height)) : ℕ) : ℚ) := by
    positivity
  have hg1 : ((img.gray (min (img.width - 1) (ix * computeStride img.width img.height))
      (min (img.height - 1) (iy * computeStride img.width img.height)) : ℕ) : ℚ) ≤ 255 := by
    exact_mod_cast Nat.cast_le.mpr (Fin.is_le _)
  simp only [ELEV_MIN_M, ELEV_MAX_M]
  constructor
  · nlinarith [hg0, hg1]
  · nlinarith [hg0, hg1]

/-- Linear interpolation between two values of an interval stays in it. -/
theorem interp_bounds (a c t lo hi : ℚ) (ha : lo ≤ a ∧ a ≤ hi)
    (hc : lo ≤ c ∧ c ≤ hi) (ht : 0 ≤ t ∧ t ≤ 1) :
    lo ≤ a * (1 - t) + c * t ∧ a * (1 - t) + c * t ≤ hi := by
  constructor
  · nlinarith [ha.1, hc.1, ht.1, ht.2]
  · nlinarith [ha.2, hc.2, ht.1, ht.2]

/-- Bilinear interpolation of four values of an interval stays in it. -/
theorem interp4_bounds (h00 h10 h01v h11 tx ty lo hi : ℚ)
    (hb : (lo ≤ h00 ∧ h00 ≤ hi) ∧ (lo ≤ h10 ∧ h10 ≤ hi) ∧
      (lo ≤ h01v ∧ h01v ≤ hi) ∧ (lo ≤ h11 ∧ h11 ≤ hi))
    (htx : 0 ≤ tx ∧ tx ≤ 1) (hty : 0 ≤ ty ∧ ty ≤ 1) :
    lo ≤ (h00 * (1 - tx) + h10 * tx) * (1 - ty) +
        (h01v * (1 - tx) + h11 * tx) * ty ∧
      (h00 * (1 - tx) + h10 * tx) * (1 - ty) +
        (h01v * (1 - tx) + h11 * tx) * ty ≤ hi :=
  interp_bounds _ _ ty lo hi
    (interp_bounds h00 h10 tx lo hi hb.1 hb.2.1 htx)
    (interp_bounds h01v h11 tx lo hi hb.2.2.1 hb.2.2.2 htx) hty

/-- The fractional offset to the floor lies in `[0, 1]`. -/
theorem fract_bounds (q : ℚ) : 0 ≤ q - ⌊q⌋ ∧ q - ⌊q⌋ ≤ 1 :=
  ⟨sub_nonneg.mpr (Int.floor_le q), by linarith [Int.lt_floor_add_one q]⟩

/-- Claim C3: the local height query answers non-null exactly when both
normalized footprint coordinates lie in `[0, 1]` (null as soon as either
falls outside), and every non-null answer lies in the shifted elevation
range `[0, ELEV_MAX_M - ELEV_MIN_M]`. -/
theorem getHeightAtLocalXZ_domain_and_range (img : ImageData) (x z : ℚ) :
    ((0 ≤ (x + TERRAIN_SIZE_M * 0.5) / TERRAIN_SIZE_M ∧
      (x + TERRAIN_SIZE_M * 0.5) / TERRAIN_SIZE_M ≤ 1 ∧
      0 ≤ (z + TERRAIN_SIZE_M * 0.5) / TERRAIN_SIZE_M ∧
      (z + TERRAIN_SIZE_M * 0.5) / TERRAIN_SIZE_M ≤ 1) →
      (getHeightAtLocalXZ img x z).isSome = true) ∧
    (((x + TERRAIN_SIZE_M * 0.5) / TERRAIN_SIZE_M < 0 ∨
      1 < (x + TERRAIN_SIZE_M * 0.5) / TERRAIN_SIZE_M ∨
      (z + TERRAIN_SIZE_M * 0.5) / TERRAIN_SIZE_M < 0 ∨
      1 < (z + TERRAIN_SIZE_M * 0.5) / TERRAIN_SIZE_M) →
      getHeightAtLocalXZ img x z = none) ∧
    (∀ h, getHeightAtLocalXZ img x z = some h →
      0 ≤ h ∧ h ≤ ELEV_MAX_M - ELEV_MIN_M) := by
  refine ⟨fun hin => ?_, fun hout => ?_, fun h hEq => ?_⟩
  · simp only [getHeightAtLocalXZ]
    rw [if_neg (by push_neg; exact ⟨hin.1, hin.2.1, hin.2.2.1, hin.2.2.2⟩)]
    rfl
  · simp only [getHeightAtLocalXZ]
    rw [if_pos hout]
  · simp only [getHeightAtLocalXZ] at hEq
    by_cases hguard : (x + TERRAIN_SIZE_M * 0.5) / TERRAIN_SIZE_M < 0 ∨
        1 < (x + TERRAIN_SIZE_M * 0.5) / TERRAIN_SIZE_M ∨
        (z + TERRAIN_SIZE_M * 0.5) / TERRAIN_SIZE_M < 0 ∨
        1 < (z + TERRAIN_SIZE_M * 0.5) / TERRAIN_SIZE_M
    · rw [if_pos hguard] at hEq
      exact absurd hEq (by simp)
    · rw [if_neg hguard] at hEq
      rw [Option.some_inj] at hEq
      rw [← hEq]
      exact interp4_bounds _ _ _ _ _ _ _ _
        ⟨heightSample_bounds img _ _, heightSample_bounds img _ _,
          heightSample_bounds img _ _, heightSample_bounds img _ _⟩
        (fract_bounds _) (fract_bounds _)

/-- A 2 x 2 raster with the constant gray byte 51 (i.e. `h01 = 1/5`). -/
def imgFlat : ImageData := ⟨2, 2, fun _ _ => 51⟩

/-- Witness for C3: at the footprint center the query of `imgFlat`
answers (non-null), one meter beyond the +X edge it answers null. -/
theorem getHeightAtLocalXZ_domain_and_range_witness :
    (getHeightAtLocalXZ imgFlat 0 0).isSome = true ∧
    getHeightAtLocalXZ imgFlat 600 0 = none :=
  ⟨(getHeightAtLocalXZ_domain_and_range imgFlat 0 0).1
      (by norm_num [TERRAIN_SIZE_M]),
   (getHeightAtLocalXZ_domain_and_range imgFlat 600 0).2.1
      (by norm_num [TERRAIN_SIZE_M])⟩

end SantaVillage
